import Mathlib

/-!
Verification development for v8serialize.h: a header-only conversion layer
between V8 dynamic values and native C++ values.

Modelling conventions.

The dynamic engine (V8) is an external collaborator; it is modelled here from
the narrow interface the core consumes (spec section 6): kind tests, scalar
extraction and construction, object property enumeration/get/set, array
length/get/set.  Dynamic numbers are modelled as exact rationals (ℚ): the
IEEE-754 double grid embeds into ℚ, and on every verified code path the
numeric operations are exact on in-range values.  The single place the source
performs a lossy integer-to-double cast (the 64-bit writers) is modelled by an
explicit round-to-nearest-even function.

C++ out-parameters (`T &result`) are modelled by passing the current value of
the out-parameter in and returning its final value.  A thrown
bad_conversion_exception is modelled by the second component of the returned
pair being `some e`; the first component is the state the out-parameter was
left in when the exception escaped, which is observable through the caller's
reference exactly as in C++.
-/

/-- Model of a V8 dynamic value (`v8::Value`), restricted to the kinds the
conversion layer consumes: numbers, booleans, strings, arrays, plain objects
(as association lists of own properties, unique keys by construction), and
the undefined value. -/
inductive JSValue : Type where
  | num (x : ℚ)
  | boolean (b : Bool)
  | str (s : String)
  | arr (elems : List JSValue)
  | obj (props : List (String × JSValue))
  | undefined

namespace JSValue

/-- Engine kind test `v8::Value::IsNumber`. -/
def isNumber : JSValue → Bool
  | num _ => true
  | _ => false

/-- Engine kind test `v8::Value::IsBoolean`. -/
def isBoolean : JSValue → Bool
  | boolean _ => true
  | _ => false

/-- Engine kind test `v8::Value::IsString`. -/
def isString : JSValue → Bool
  | str _ => true
  | _ => false

/-- Engine kind test `v8::Value::IsUndefined`. -/
def isUndefined : JSValue → Bool
  | undefined => true
  | _ => false

end JSValue

/-- Truncation of a rational toward zero, as C/ECMAScript number-to-integer
conversion does.  `Int.div` is T-division (rounds toward zero), and a `Rat`
has a positive denominator, so `num.tdiv den` is exactly trunc. -/
def ratTrunc (q : ℚ) : ℤ :=
  q.num.tdiv (q.den : ℤ)

/-- ECMAScript ToInt32: truncate toward zero, reduce modulo 2^32 into
[0, 2^32), then re-center into [-2^31, 2^31). -/
def toInt32 (q : ℚ) : ℤ :=
  let m := (ratTrunc q) % (2 ^ 32)
  if m < 2 ^ 31 then m else m - 2 ^ 32

/-- ECMAScript ToUint32: truncate toward zero and reduce modulo 2^32 into
[0, 2^32). -/
def toUint32 (q : ℚ) : ℤ :=
  (ratTrunc q) % (2 ^ 32)

namespace JSValue

/-- Engine accessor `v8::Value::Int32Value`.  The source only invokes it
after an `IsNumber` check, so the value on non-number kinds is irrelevant;
0 is V8's result for non-numeric coercions such as NaN. -/
def int32Value : JSValue → ℤ
  | num x => toInt32 x
  | _ => 0

/-- Engine accessor `v8::Value::Uint32Value` (guarded by `IsNumber` at
every call site in the source). -/
def uint32Value : JSValue → ℤ
  | num x => toUint32 x
  | _ => 0

/-- Engine accessor `v8::Value::IntegerValue`: the number truncated toward
zero as a 64-bit integer (guarded by `IsNumber` at every call site). -/
def integerValue : JSValue → ℤ
  | num x => ratTrunc x
  | _ => 0

/-- Engine accessor `v8::Value::NumberValue` (guarded by `IsNumber`). -/
def numberValue : JSValue → ℚ
  | num x => x
  | _ => 0

/-- Engine accessor `v8::Value::BooleanValue` (guarded by `IsBoolean`, so
the general ToBoolean coercion on other kinds is never exercised). -/
def booleanValue : JSValue → Bool
  | boolean b => b
  | _ => false

/-- Engine accessor `v8::String::Utf8Value` (guarded by `IsString`). -/
def stringValue : JSValue → String
  | str s => s
  | _ => ""

end JSValue

/-- C++ `const char *` truncation: reading a byte string through a
NUL-terminated pointer (`std::string::c_str`, or assigning a `char *` to a
`std::string`) keeps only the characters before the first NUL. -/
def cstrTruncate (s : String) : String :=
  String.mk (s.data.takeWhile (fun c => c ≠ Char.ofNat 0))

/-- Wrap of an arbitrary integer into signed 16-bit two's-complement range,
the effect of the C++ narrowing conversion int32_t → int16_t. -/
def wrap16s (n : ℤ) : ℤ :=
  let m := n % (2 ^ 16)
  if m < 2 ^ 15 then m else m - 2 ^ 16

/-- Wrap of an arbitrary integer into unsigned 16-bit range, the effect of
the C++ narrowing conversion uint32_t → uint16_t. -/
def wrap16u (n : ℤ) : ℤ :=
  n % (2 ^ 16)

/-- Wrap of a 64-bit signed integer into unsigned 64-bit range, the effect
of the C++ conversion int64_t → uint64_t. -/
def wrap64u (n : ℤ) : ℤ :=
  n % (2 ^ 64)

/-- Fuel-driven binary logarithm (structural recursion, so that the kernel
can evaluate it): for n ≥ 1, the position of the highest set bit. -/
def natLog2Go : Nat → Nat → Nat
  | 0, _ => 0
  | fuel + 1, n => if n ≤ 1 then 0 else natLog2Go fuel (n / 2) + 1

/-- Binary logarithm, `natLog2 n = Nat.log2 n` for the arguments in use. -/
def natLog2 (n : Nat) : Nat :=
  natLog2Go n n

/-- The C++ cast `static_cast<double>` applied to a 64-bit integer: exact
for magnitudes up to 2^53, otherwise rounded to the nearest representable
double (53-bit significand), ties to even. -/
def intToDouble (n : ℤ) : ℤ :=
  if n.natAbs ≤ 2 ^ 53 then n
  else
    let a := n.natAbs
    let e := natLog2 a
    let s := 2 ^ (e - 52)
    let q := a / s
    let r := a % s
    let rounded :=
      if r * 2 < s then q * s
      else if s < r * 2 then (q + 1) * s
      else if q % 2 = 0 then q * s else (q + 1) * s
    (Int.sign n) * (rounded : ℤ)

/-- `bad_conversion_exception`: thrown when a value cannot be converted.
The source's default constructor sets the message "Conversion failed". -/
structure bad_conversion_exception : Type where
  message : String
deriving DecidableEq

/-- The exception value thrown by every `throw bad_conversion_exception()`
in the source (default constructor). -/
def cerr : bad_conversion_exception :=
  { message := "Conversion failed" }

/-- Model of the class template `convert<T>`: a conversion rule for one
native type.
 - `from_json data result`: C++ `void from_json(const ValueHandle&, T &result)`;
   takes the out-parameter's current value, returns its final value together
   with `some e` when a `bad_conversion_exception` escapes.
 - `to_json`: C++ `ValueHandle to_json(const T &value)`.
 - `dflt`: the value produced by default-constructing `T` (`T element;` in the
   sequence reader, `new T()` in the shared-ptr reader); for scalar types the
   C++ object is uninitialized and its value is never observed, so a fixed
   representative is used. -/
structure convert (α : Type) : Type where
  dflt : α
  from_json : JSValue → α → α × Option bad_conversion_exception
  to_json : α → JSValue

/-- `convert<int16_t>` (v8serialize.h lines 242-256): reads via `Int32Value`
after an `IsNumber` check, narrowing int32_t → int16_t; writes via
`v8::Integer::New` (int16_t promotes exactly to int32_t). -/
def convert_int16_t : convert ℤ where
  dflt := 0
  from_json data result :=
    if data.isNumber then (wrap16s data.int32Value, none)
    else (result, some cerr)
  to_json value := JSValue.num (value : ℚ)

/-- `convert<uint16_t>` (lines 260-274): reads via `Uint32Value`, narrowing
uint32_t → uint16_t; writes via `v8::Integer::NewFromUnsigned`. -/
def convert_uint16_t : convert ℤ where
  dflt := 0
  from_json data result :=
    if data.isNumber then (wrap16u data.uint32Value, none)
    else (result, some cerr)
  to_json value := JSValue.num (value : ℚ)

/-- `convert<int32_t>` (lines 278-292): reads via `Int32Value` after an
`IsNumber` check; writes via `v8::Integer::New`. -/
def convert_int32_t : convert ℤ where
  dflt := 0
  from_json data result :=
    if data.isNumber then (data.int32Value, none)
    else (result, some cerr)
  to_json value := JSValue.num (value : ℚ)

/-- `convert<uint32_t>` (lines 296-310): reads via `Uint32Value`; writes via
`v8::Integer::NewFromUnsigned`. -/
def convert_uint32_t : convert ℤ where
  dflt := 0
  from_json data result :=
    if data.isNumber then (data.uint32Value, none)
    else (result, some cerr)
  to_json value := JSValue.num (value : ℚ)

/-- `convert<int64_t>` (lines 314-328): reads via `IntegerValue`; writes
`v8::Number::New(static_cast<double>(value))`, the lossy-beyond-2^53 cast. -/
def convert_int64_t : convert ℤ where
  dflt := 0
  from_json data result :=
    if data.isNumber then (data.integerValue, none)
    else (result, some cerr)
  to_json value := JSValue.num ((intToDouble value : ℤ) : ℚ)

/-- `convert<uint64_t>` (lines 332-346): reads via `IntegerValue` (an
int64_t, converted to uint64_t by the assignment); writes
`v8::Number::New(static_cast<double>(value))`. -/
def convert_uint64_t : convert ℤ where
  dflt := 0
  from_json data result :=
    if data.isNumber then (wrap64u data.integerValue, none)
    else (result, some cerr)
  to_json value := JSValue.num ((intToDouble value : ℤ) : ℚ)

/-- `convert<double>` (lines 350-364): reads via `NumberValue` after an
`IsNumber` check; writes via `v8::Number::New`. -/
def convert_double : convert ℚ where
  dflt := 0
  from_json data result :=
    if data.isNumber then (data.numberValue, none)
    else (result, some cerr)
  to_json value := JSValue.num value

/-- `convert<float>` (lines 368-382): reads via `NumberValue` (the C++
assignment narrows double → float; on every float-representable value — the
only values this development evaluates it on — that narrowing is exact, so
it is the identity in the exact-rational number model); writes via
`v8::Number::New` (float promotes exactly to double). -/
def convert_float : convert ℚ where
  dflt := 0
  from_json data result :=
    if data.isNumber then (data.numberValue, none)
    else (result, some cerr)
  to_json value := JSValue.num value

/-- `convert<bool>` (lines 386-400): reads via `BooleanValue` after an
`IsBoolean` check; writes via `v8::Boolean::New`. -/
def convert_bool : convert Bool where
  dflt := false
  from_json data result :=
    if data.isBoolean then (data.booleanValue, none)
    else (result, some cerr)
  to_json value := JSValue.boolean value

/-- `convert<std::string>` (lines 404-422): reads via `String::Utf8Value`
after an `IsString` check, assigning the `char *` to a `std::string`
(truncates at the first NUL); writes `v8::String::New(value.c_str())`, which
also truncates at the first NUL. -/
def convert_string : convert String where
  dflt := ""
  from_json data result :=
    if data.isString then (cstrTruncate data.stringValue, none)
    else (result, some cerr)
  to_json value := JSValue.str (cstrTruncate value)

/-- Top-level entry point `from_json<T>` (lines 206-216): delegates to
`convert<T>::from_json` under a `TryCatch` that normalizes engine-level
errors into `bad_conversion_exception`; the engine model raises no errors of
its own, so the wrapper is the plain delegation. -/
def from_json {α : Type} (c : convert α) (value : JSValue) (result : α) :
    α × Option bad_conversion_exception :=
  c.from_json value result

/-- Top-level entry point `to_json<T>` (lines 223-235): delegates to
`convert<T>::to_json` under the same engine-error normalization. -/
def to_json {α : Type} (c : convert α) (value : α) : JSValue :=
  c.to_json value

/-- Keys of an association list (native map entries or dynamic object
properties). -/
def keysOf {α : Type} (l : List (String × α)) : List String :=
  l.map Prod.fst

/-- Engine operation `v8::Object::Get` on the own-property model: the value
of the first property with the given name, or undefined when absent (as V8
returns for a missing property). -/
def objGet : List (String × JSValue) → String → JSValue
  | [], _ => JSValue.undefined
  | (k, v) :: rest, name => if k = name then v else objGet rest name

/-- Engine operation `v8::Object::Set` on the own-property model: overwrite
the existing property of that name or append a new one (JS object keys stay
unique). -/
def objSet : List (String × JSValue) → String → JSValue → List (String × JSValue)
  | [], name, v => [(name, v)]
  | (k, w) :: rest, name, v =>
    if k = name then (name, v) :: rest else (k, w) :: objSet rest name v

/-- Modelled from the spec: the engine-side "is object-like" capability
(spec section 6) realized in the source as `Handle<Object>::Cast` followed
by an `IsEmpty` check (v8serialize.h lines 436-438).  Object-like values are
plain objects and arrays (a JS array is an object whose own enumerable
properties are its indices); primitives and undefined are not object-like
and yield the empty handle, i.e. `none`. -/
def objCast : JSValue → Option (List (String × JSValue))
  | JSValue.obj props => some props
  | JSValue.arr elems => some ((List.range elems.length).map
      (fun i => (toString i, elems.getD i JSValue.undefined)))
  | _ => none

/-- Modelled from the spec: the engine-side "is array-like" capability (spec
section 6) realized in the source as `Handle<Array>::Cast` followed by an
`IsEmpty` check (v8serialize.h lines 487-489): casting a non-array yields
the empty handle, i.e. `none`. -/
def arrayCast : JSValue → Option (List JSValue)
  | JSValue.arr elems => some elems
  | _ => none

/-- The property list of a dynamic object value (empty for other kinds);
used only to state theorems about values the writers produce. -/
def jsObjProps : JSValue → List (String × JSValue)
  | JSValue.obj props => props
  | _ => []

/-- The element list of a dynamic array value (empty for other kinds); used
only to state theorems about values the writers produce. -/
def jsArrElems : JSValue → List JSValue
  | JSValue.arr elems => elems
  | _ => []

/-- Lexicographic comparison of character lists, the order
`std::string::operator<` gives to `std::map<std::string, _>` keys. -/
def strLtb : List Char → List Char → Bool
  | [], [] => false
  | [], _ :: _ => true
  | _ :: _, [] => false
  | a :: as, b :: bs => if a < b then true else if b < a then false else strLtb as bs

/-- `std::string` comparison (`operator<`). -/
def strLt (a b : String) : Bool :=
  strLtb a.data b.data

/-- `std::map<std::string, T>::operator[]` followed by assignment
(`result[first] = second`, line 452): ordered insert-or-assign keeping the
keys sorted and unique, as std::map does. -/
def mapInsert {α : Type} (name : String) (v : α) :
    List (String × α) → List (String × α)
  | [] => [(name, v)]
  | (k, w) :: rest =>
    if strLt name k then (name, v) :: (k, w) :: rest
    else if name = k then (name, v) :: rest
    else (k, w) :: mapInsert name v rest

/-- Lookup in the native map model (`std::map::find`); used only to state
theorems. -/
def mapFind? {α : Type} : List (String × α) → String → Option α
  | [], _ => none
  | (k, v) :: rest, name => if k = name then some v else mapFind? rest name

/-- The loop of `convert<std::map<std::string,T>>::from_json` (lines
441-453): for each enumerated property name, `Get` the value, convert it
into a default-constructed `T second`, and insert `result[first] = second`.
A thrown element exception escapes with `result` as already updated by the
completed iterations. -/
def convert_map.fromGo {α : Type} (c : convert α)
    (props : List (String × JSValue)) :
    List String → List (String × α) →
    List (String × α) × Option bad_conversion_exception
  | [], result => (result, none)
  | name :: rest, result =>
    match c.from_json (objGet props name) c.dflt with
    | (second, none) => convert_map.fromGo c props rest (mapInsert name second result)
    | (_, some e) => (result, some e)

/-- The loop of `convert<std::map<std::string,T>>::to_json` (lines 461-467):
iterate the native map in its own (key-sorted) order, converting each value
and `Set`ting it on a fresh object. -/
def convert_map.toGo {α : Type} (c : convert α) :
    List (String × α) → List (String × JSValue) → List (String × JSValue)
  | [], object => object
  | (k, v) :: rest, object => convert_map.toGo c rest (objSet object k (c.to_json v))

/-- `convert<std::map<std::string,T>>` (lines 427-470).  Read: cast to
object (empty handle ⇒ throw), enumerate own property names, convert each
property into the result map.  Write: build a fresh object from the map
entries in iteration order. -/
def convert_map {α : Type} (c : convert α) : convert (List (String × α)) where
  dflt := []
  from_json data result :=
    match objCast data with
    | none => (result, some cerr)
    | some props => convert_map.fromGo c props (keysOf props) result
  to_json value := JSValue.obj (convert_map.toGo c value [])

/-- The loop of `convert_list::from_json` (lines 491-497): for each array
index in order, convert the element into a default-constructed `T element`
and `push_back` it onto `result`.  A thrown element exception escapes with
`result` still holding the elements pushed by the completed iterations. -/
def convert_list.fromGo {α : Type} (c : convert α) :
    List JSValue → List α → List α × Option bad_conversion_exception
  | [], result => (result, none)
  | e :: rest, result =>
    match c.from_json e c.dflt with
    | (element, none) => convert_list.fromGo c rest (result ++ [element])
    | (_, some ex) => (result, some ex)

/-- The loop of `convert_list::to_json` (lines 505-512): `Array::New(size)`
then `Set(i, ...)` for each element in iteration order. -/
def convert_list.toGo {α : Type} (c : convert α) :
    List JSValue → Nat → List α → List JSValue
  | acc, _, [] => acc
  | acc, i, x :: rest => convert_list.toGo c (acc.set i (c.to_json x)) (i + 1) rest

/-- `convert_list` (lines 477-515), the rule shared by `convert<std::vector<T>>`
and `convert<std::list<T>>`.  Read: cast to array (empty handle ⇒ throw),
then convert and append each element in index order.  Write: create an array
pre-sized to the sequence's length and assign converted elements in order. -/
def convert_list {α : Type} (c : convert α) : convert (List α) where
  dflt := []
  from_json data result :=
    match arrayCast data with
    | none => (result, some cerr)
    | some elems => convert_list.fromGo c elems result
  to_json value :=
    JSValue.arr (convert_list.toGo c (List.replicate value.length JSValue.undefined) 0 value)

/-- `convert<boost::shared_ptr<T>>` (lines 542-555), the shared pointer
modelled as `Option α` (`none` = null).  Read: assign `result` a freshly
allocated default-constructed `T`, then convert into the pointee — so the
out-parameter is overwritten before conversion, and keeps the fresh (possibly
partially converted) object even when the element conversion throws.  Write:
dereference unconditionally — no null check and no error branch; dereferencing
null is undefined behaviour in C++, modelled as `undefined` and exercised by
no theorem (all theorems assume a non-null wrapper). -/
def convert_shared_ptr {α : Type} (c : convert α) : convert (Option α) where
  dflt := none
  from_json data _result :=
    match c.from_json data c.dflt with
    | (pointee, ex) => (some pointee, ex)
  to_json value :=
    match value with
    | some pointee => c.to_json pointee
    | none => JSValue.undefined

/-- `load_info` (lines 105-157): a thin wrapper around one dynamic value,
passed to user-defined `T::load`. -/
structure load_info : Type where
  value : JSValue

/-- `load_info::get` required form (lines 122-134): `Get` the property,
throw when the engine reported an error or the property is undefined
(missing), otherwise convert it into `result`.  The engine model raises no
errors of its own, so `TryCatch::HasCaught` is always false here. -/
def load_info.get {α : Type} (c : convert α) (info : load_info)
    (name : String) (result : α) : α × Option bad_conversion_exception :=
  let child := objGet (jsObjProps info.value) name
  if child.isUndefined then (result, some cerr)
  else c.from_json child result

/-- `load_info::get` defaulted form (lines 143-155): run the required form;
on a `bad_conversion_exception`, assign `result = def` and swallow the
exception. -/
def load_info.getWithDefault {α : Type} (c : convert α) (info : load_info)
    (name : String) (result : α) (def_ : α) :
    α × Option bad_conversion_exception :=
  match load_info.get c info name result with
  | (r, none) => (r, none)
  | (_, some _) => (def_, none)

/-! Helper lemmas about the engine arithmetic. -/

theorem ratTrunc_intCast (n : ℤ) : ratTrunc (n : ℚ) = n := by
  simp [ratTrunc, Rat.num_intCast, Rat.den_intCast, Int.tdiv_one]

theorem toInt32_intCast (n : ℤ) (h1 : -(2 ^ 31) ≤ n) (h2 : n < 2 ^ 31) :
    toInt32 (n : ℚ) = n := by
  simp only [toInt32, ratTrunc_intCast]
  omega

theorem toUint32_intCast (n : ℤ) (h1 : 0 ≤ n) (h2 : n < 2 ^ 32) :
    toUint32 (n : ℚ) = n := by
  simp only [toUint32, ratTrunc_intCast]
  omega

theorem intToDouble_small (n : ℤ) (h : n.natAbs ≤ 2 ^ 53) : intToDouble n = n := by
  unfold intToDouble
  rw [if_pos h]

theorem wrap16s_emod (n : ℤ) : wrap16s n % 2 ^ 16 = n % 2 ^ 16 := by
  simp only [wrap16s]
  omega

theorem wrap16s_fixed (n : ℤ) (h1 : -(2 ^ 15) ≤ n) (h2 : n < 2 ^ 15) :
    wrap16s n = n := by
  simp only [wrap16s]
  omega

theorem cstrTruncate_eq_self (s : String) (h : Char.ofNat 0 ∉ s.data) :
    cstrTruncate s = s := by
  unfold cstrTruncate
  have hself : s.data.takeWhile (fun c => decide (c ≠ Char.ofNat 0)) = s.data := by
    rw [List.takeWhile_eq_self_iff]
    intro c hc
    simp only [ne_eq, decide_eq_true_eq]
    intro hcontra
    exact h (hcontra ▸ hc)
  rw [hself]

/-! Helper lemmas about the sequence conversion loops. -/

theorem list_set_append (done : List JSValue) (u b : JSValue) (rest : List JSValue) :
    (done ++ u :: rest).set done.length b = done ++ b :: rest := by
  induction done with
  | nil => rfl
  | cons d ds ih => simp [List.set, ih]

theorem convert_list_toGo_spec {α : Type} (c : convert α) (xs : List α) :
    ∀ done : List JSValue,
      convert_list.toGo c (done ++ List.replicate xs.length JSValue.undefined)
        done.length xs = done ++ xs.map c.to_json := by
  induction xs with
  | nil => intro done; simp [convert_list.toGo]
  | cons x rest ih =>
    intro done
    simp only [List.length_cons, List.replicate, convert_list.toGo]
    rw [list_set_append done JSValue.undefined (c.to_json x)]
    have h1 : done ++ c.to_json x :: List.replicate rest.length JSValue.undefined
        = (done ++ [c.to_json x]) ++ List.replicate rest.length JSValue.undefined := by
      simp
    have h2 : done.length + 1 = (done ++ [c.to_json x]).length := by simp
    rw [h1, h2, ih (done ++ [c.to_json x])]
    simp

theorem convert_list_to_json_spec {α : Type} (c : convert α) (xs : List α) :
    to_json (convert_list c) xs = JSValue.arr (xs.map c.to_json) := by
  have := convert_list_toGo_spec c xs []
  simpa [to_json, convert_list] using this

theorem convert_list_fromGo_ok {α : Type} (c : convert α) (es : List JSValue)
    (h : ∀ e ∈ es, (c.from_json e c.dflt).2 = none) :
    ∀ init : List α,
      convert_list.fromGo c es init
        = (init ++ es.map (fun e => (c.from_json e c.dflt).1), none) := by
  induction es with
  | nil => intro init; simp [convert_list.fromGo]
  | cons e rest ih =>
    intro init
    have he : (c.from_json e c.dflt).2 = none := h e (by simp)
    have hrest : ∀ x ∈ rest, (c.from_json x c.dflt).2 = none := by
      intro x hx; exact h x (by simp [hx])
    simp only [convert_list.fromGo]
    cases hfe : c.from_json e c.dflt with
    | mk element ex =>
      rw [hfe] at he
      cases ex with
      | none =>
        simp only []
        rw [ih hrest (init ++ [element])]
        simp [hfe]
      | some err => simp at he

theorem convert_list_fromGo_fail {α : Type} (c : convert α)
    (es1 : List JSValue) (bad : JSValue) (es2 : List JSValue)
    (x : α) (ex : bad_conversion_exception)
    (h1 : ∀ e ∈ es1, (c.from_json e c.dflt).2 = none)
    (h2 : c.from_json bad c.dflt = (x, some ex)) :
    ∀ init : List α,
      convert_list.fromGo c (es1 ++ bad :: es2) init
        = (init ++ es1.map (fun e => (c.from_json e c.dflt).1), some ex) := by
  induction es1 with
  | nil =>
    intro init
    simp only [List.nil_append, convert_list.fromGo, h2, List.map_nil, List.append_nil]
  | cons e rest ih =>
    intro init
    have he : (c.from_json e c.dflt).2 = none := h1 e (by simp)
    have hrest : ∀ a ∈ rest, (c.from_json a c.dflt).2 = none := by
      intro a ha; exact h1 a (by simp [ha])
    simp only [List.cons_append, convert_list.fromGo]
    cases hfe : c.from_json e c.dflt with
    | mk element exx =>
      rw [hfe] at he
      cases exx with
      | none =>
        simp only [List.append_eq]
        rw [ih hrest (init ++ [element])]
        simp [hfe]
      | some err => simp at he

/-! Helper lemmas about objects, native maps, and the map conversion loops. -/

theorem objGet_not_mem {props : List (String × JSValue)} {name : String}
    (h : name ∉ keysOf props) : objGet props name = JSValue.undefined := by
  induction props with
  | nil => rfl
  | cons p rest ih =>
    cases p with
    | mk k v =>
      simp only [keysOf, List.map_cons, List.mem_cons] at h
      push_neg at h
      simp only [objGet, if_neg (Ne.symm h.1)]
      exact ih (by simpa [keysOf] using h.2)

theorem objGet_mem (props : List (String × JSValue)) (name : String)
    (h : name ∈ keysOf props) : (name, objGet props name) ∈ props := by
  induction props with
  | nil => simp [keysOf] at h
  | cons p rest ih =>
    cases p with
    | mk k v =>
      by_cases hk : k = name
      · subst hk
        simp [objGet]
      · simp only [keysOf, List.map_cons, List.mem_cons] at h
        rcases h with h | h
        · exact absurd h.symm hk
        · simp only [objGet, if_neg hk]
          exact List.mem_cons_of_mem _ (ih (by simpa [keysOf] using h))

theorem objSet_not_mem (props : List (String × JSValue)) (name : String)
    (v : JSValue) (h : name ∉ keysOf props) :
    objSet props name v = props ++ [(name, v)] := by
  induction props with
  | nil => rfl
  | cons p rest ih =>
    cases p with
    | mk k w =>
      simp only [keysOf, List.map_cons, List.mem_cons] at h
      push_neg at h
      simp only [objSet, if_neg (Ne.symm h.1), List.cons_append]
      rw [ih (by simpa [keysOf] using h.2)]

theorem keysOf_map_fst {α β : Type} (l : List (String × α)) (g : String × α → β) :
    keysOf (l.map (fun p => (p.1, g p))) = keysOf l := by
  simp [keysOf, List.map_map, Function.comp]

theorem convert_map_toGo_spec {α : Type} (c : convert α) (m : List (String × α))
    (hnd : (keysOf m).Nodup) :
    ∀ acc : List (String × JSValue),
      (∀ n ∈ keysOf m, n ∉ keysOf acc) →
      convert_map.toGo c m acc = acc ++ m.map (fun p => (p.1, c.to_json p.2)) := by
  induction m with
  | nil => intro acc _; simp [convert_map.toGo]
  | cons p rest ih =>
    cases p with
    | mk k v =>
      intro acc hdisj
      simp only [keysOf, List.map_cons, List.nodup_cons] at hnd
      have hk : k ∉ keysOf acc := hdisj k (by simp [keysOf])
      have hdisj2 : ∀ n ∈ keysOf rest, n ∉ keysOf (acc ++ [(k, c.to_json v)]) := by
        intro n hn
        have hnk : n ≠ k := by
          intro hcontra
          refine hnd.1 ?_
          rw [← hcontra]
          simpa [keysOf] using hn
        have hna : n ∉ keysOf acc := by
          refine hdisj n ?_
          simp only [keysOf, List.map_cons, List.mem_cons]
          right
          simpa [keysOf] using hn
        simp only [keysOf, List.map_append, List.map_cons, List.map_nil, List.mem_append,
          List.mem_singleton]
        push_neg
        exact ⟨by simpa [keysOf] using hna, hnk⟩
      simp only [convert_map.toGo]
      rw [objSet_not_mem acc k (c.to_json v) hk]
      rw [ih (by simpa [keysOf] using hnd.2) (acc ++ [(k, c.to_json v)]) hdisj2]
      simp

theorem convert_map_to_json_spec {α : Type} (c : convert α) (m : List (String × α))
    (hnd : (keysOf m).Nodup) :
    to_json (convert_map c) m = JSValue.obj (m.map (fun p => (p.1, c.to_json p.2))) := by
  have := convert_map_toGo_spec c m hnd [] (by simp [keysOf])
  simpa [to_json, convert_map] using this

theorem mapInsert_perm {α : Type} (name : String) (v : α) (l : List (String × α))
    (h : name ∉ keysOf l) : (mapInsert name v l).Perm ((name, v) :: l) := by
  induction l with
  | nil => simp [mapInsert]
  | cons p rest ih =>
    cases p with
    | mk k w =>
      simp only [keysOf, List.map_cons, List.mem_cons] at h
      push_neg at h
      simp only [mapInsert, if_neg h.1]
      by_cases hlt : strLt name k
      · simp [hlt]
      · simp only [hlt, if_false, Bool.false_eq_true]
        have := (ih (by simpa [keysOf] using h.2)).cons (k, w)
        exact this.trans (List.Perm.swap (name, v) (k, w) rest)

theorem keysOf_mapInsert_perm {α : Type} (name : String) (v : α)
    (l : List (String × α)) (h : name ∉ keysOf l) :
    (keysOf (mapInsert name v l)).Perm (name :: keysOf l) :=
  (mapInsert_perm name v l h).map Prod.fst

theorem mapFind?_mapInsert {α : Type} (name : String) (v : α)
    (l : List (String × α)) (k : String) :
    mapFind? (mapInsert name v l) k = if k = name then some v else mapFind? l k := by
  induction l with
  | nil =>
    by_cases hk : k = name
    · simp [mapInsert, mapFind?, hk]
    · have hnk : ¬ (name = k) := fun h => hk (Eq.symm h)
      simp [mapInsert, mapFind?, hk, hnk]
  | cons p rest ih =>
    cases p with
    | mk k0 w =>
      by_cases hlt : strLt name k0
      · simp only [mapInsert, hlt, if_true]
        by_cases hk : k = name
        · simp [mapFind?, hk]
        · have hnk : ¬ (name = k) := fun h => hk (Eq.symm h)
          simp [mapFind?, hnk, hk]
      · by_cases heq : name = k0
        · subst heq
          simp only [mapInsert, hlt, Bool.false_eq_true, if_false, if_pos rfl]
          by_cases hk : k = name
          · simp [mapFind?, hk]
          · have hnk : ¬ (name = k) := fun h => hk (Eq.symm h)
            simp [mapFind?, hnk, hk]
        · simp only [mapInsert, hlt, Bool.false_eq_true, if_false, if_neg heq]
          by_cases hk0 : k0 = k
          · subst hk0
            have hkn : ¬ (k0 = name) := fun h => heq (Eq.symm h)
            simp [mapFind?, hkn]
          · simp [mapFind?, hk0, ih]

theorem convert_map_fromGo_none {α : Type} (c : convert α)
    (props : List (String × JSValue)) (names : List String)
    (h : ∀ n ∈ names, (c.from_json (objGet props n) c.dflt).2 = none) :
    ∀ init : List (String × α), (convert_map.fromGo c props names init).2 = none := by
  induction names with
  | nil => intro init; simp [convert_map.fromGo]
  | cons n0 rest ih =>
    intro init
    have h0 : (c.from_json (objGet props n0) c.dflt).2 = none := h n0 (by simp)
    have hrest : ∀ n ∈ rest, (c.from_json (objGet props n) c.dflt).2 = none := by
      intro n hn; exact h n (by simp [hn])
    simp only [convert_map.fromGo]
    cases hf : c.from_json (objGet props n0) c.dflt with
    | mk second ex =>
      rw [hf] at h0
      cases ex with
      | none => exact ih hrest (mapInsert n0 second init)
      | some e => simp at h0

theorem convert_map_fromGo_find {α : Type} (c : convert α)
    (props : List (String × JSValue)) (names : List String)
    (h : ∀ n ∈ names, (c.from_json (objGet props n) c.dflt).2 = none) :
    ∀ (init : List (String × α)) (k : String),
      mapFind? (convert_map.fromGo c props names init).1 k
        = if k ∈ names then some ((c.from_json (objGet props k) c.dflt).1)
          else mapFind? init k := by
  induction names with
  | nil => intro init k; simp [convert_map.fromGo]
  | cons n0 rest ih =>
    intro init k
    have h0 : (c.from_json (objGet props n0) c.dflt).2 = none := h n0 (by simp)
    have hrest : ∀ n ∈ rest, (c.from_json (objGet props n) c.dflt).2 = none := by
      intro n hn; exact h n (by simp [hn])
    simp only [convert_map.fromGo]
    cases hf : c.from_json (objGet props n0) c.dflt with
    | mk second ex =>
      rw [hf] at h0
      cases ex with
      | none =>
        rw [ih hrest (mapInsert n0 second init) k]
        by_cases hk : k ∈ rest
        · simp [hk, List.mem_cons]
        · rw [if_neg hk]
          rw [mapFind?_mapInsert n0 second init k]
          by_cases hk0 : k = n0
          · subst hk0
            simp [hf]
          · have : ¬ (k ∈ n0 :: rest) := by
              simp only [List.mem_cons]
              push_neg
              exact ⟨hk0, hk⟩
            simp [hk0, this]
      | some e => simp at h0

theorem convert_map_fromGo_perm {α : Type} (c : convert α)
    (props : List (String × JSValue)) (names : List String)
    (hnd : names.Nodup)
    (h : ∀ n ∈ names, (c.from_json (objGet props n) c.dflt).2 = none) :
    ∀ init : List (String × α),
      (∀ n ∈ names, n ∉ keysOf init) →
      (convert_map.fromGo c props names init).1.Perm
        (init ++ names.map (fun n => (n, (c.from_json (objGet props n) c.dflt).1))) := by
  induction names with
  | nil => intro init _; simp [convert_map.fromGo]
  | cons n0 rest ih =>
    intro init hdisj
    simp only [List.nodup_cons] at hnd
    have h0 : (c.from_json (objGet props n0) c.dflt).2 = none := h n0 (by simp)
    have hrest : ∀ n ∈ rest, (c.from_json (objGet props n) c.dflt).2 = none := by
      intro n hn; exact h n (by simp [hn])
    have hn0 : n0 ∉ keysOf init := hdisj n0 (by simp)
    simp only [convert_map.fromGo]
    cases hf : c.from_json (objGet props n0) c.dflt with
    | mk second ex =>
      rw [hf] at h0
      cases ex with
      | none =>
        have hkeys : (keysOf (mapInsert n0 second init)).Perm (n0 :: keysOf init) :=
          keysOf_mapInsert_perm n0 second init hn0
        have hdisj2 : ∀ n ∈ rest, n ∉ keysOf (mapInsert n0 second init) := by
          intro n hn
          rw [hkeys.mem_iff]
          simp only [List.mem_cons]
          push_neg
          constructor
          · intro hcontra; exact hnd.1 (hcontra ▸ hn)
          · exact hdisj n (by simp [hn])
        have hperm := ih hnd.2 hrest (mapInsert n0 second init) hdisj2
        refine hperm.trans ?_
        have hstep : (mapInsert n0 second init).Perm ((n0, second) :: init) :=
          mapInsert_perm n0 second init hn0
        refine (hstep.append_right _).trans ?_
        have : ((n0, second) :: init) ++
            List.map (fun n => (n, (c.from_json (objGet props n) c.dflt).1)) rest
            = (n0, second) ::
              (init ++ List.map (fun n => (n, (c.from_json (objGet props n) c.dflt).1)) rest) := by
          simp
        rw [this]
        have hswap := (@List.perm_middle _ ((n0, second) : String × α) init
          (List.map (fun n => (n, (c.from_json (objGet props n) c.dflt).1)) rest)).symm
        refine hswap.trans ?_
        simp [hf]
      | some e => simp at h0

theorem keysOf_map_lookup {β : Type} (l : List (String × JSValue))
    (hnd : (keysOf l).Nodup) (F : JSValue → β) :
    (keysOf l).map (fun n => (n, F (objGet l n))) = l.map (fun p => (p.1, F p.2)) := by
  induction l with
  | nil => rfl
  | cons p rest ih =>
    cases p with
    | mk k0 v0 =>
      simp only [keysOf, List.map_cons, List.nodup_cons] at hnd ⊢
      have hk0 : objGet ((k0, v0) :: rest) k0 = v0 := by simp [objGet]
      rw [hk0]
      have hcong : ∀ n ∈ List.map Prod.fst rest,
          ((n : String), F (objGet ((k0, v0) :: rest) n)) = (n, F (objGet rest n)) := by
        intro n hn
        have hnk : ¬ (k0 = n) := by
          intro hcontra
          exact hnd.1 (hcontra ▸ hn)
        simp [objGet, hnk]
      rw [List.map_congr_left hcong]
      have := ih hnd.2
      simp only [keysOf] at this
      rw [this]

theorem map_write_read_aux {α : Type} (c : convert α) (m : List (String × α))
    (hnd : (keysOf m).Nodup)
    (hok : ∀ p ∈ m, (c.from_json (c.to_json p.2) c.dflt).2 = none) :
    (from_json (convert_map c) (to_json (convert_map c) m) []).2 = none ∧
    (from_json (convert_map c) (to_json (convert_map c) m) []).1.Perm
      (m.map (fun p => (p.1, (c.from_json (c.to_json p.2) c.dflt).1))) := by
  rw [convert_map_to_json_spec c m hnd]
  have hkeys : keysOf (m.map (fun p => (p.1, c.to_json p.2))) = keysOf m :=
    keysOf_map_fst m (fun p => c.to_json p.2)
  have hok2 : ∀ n ∈ keysOf (m.map (fun p => (p.1, c.to_json p.2))),
      (c.from_json (objGet (m.map (fun p => (p.1, c.to_json p.2))) n) c.dflt).2 = none := by
    intro n hn
    have hmem := objGet_mem (m.map (fun p => (p.1, c.to_json p.2))) n hn
    rw [List.mem_map] at hmem
    rcases hmem with ⟨p, hp, hpe⟩
    have hval : objGet (m.map (fun q => (q.1, c.to_json q.2))) n = c.to_json p.2 :=
      (congrArg Prod.snd hpe).symm
    rw [hval]
    exact hok p hp
  have hnd2 : (keysOf (m.map (fun p => (p.1, c.to_json p.2)))).Nodup := by
    rw [hkeys]; exact hnd
  constructor
  · show (convert_map.fromGo c (m.map (fun p => (p.1, c.to_json p.2)))
      (keysOf (m.map (fun p => (p.1, c.to_json p.2)))) []).2 = none
    exact convert_map_fromGo_none c _ _ hok2 []
  · show (convert_map.fromGo c (m.map (fun p => (p.1, c.to_json p.2)))
      (keysOf (m.map (fun p => (p.1, c.to_json p.2)))) []).1.Perm _
    have hperm := convert_map_fromGo_perm c (m.map (fun p => (p.1, c.to_json p.2)))
      (keysOf (m.map (fun p => (p.1, c.to_json p.2)))) hnd2 hok2 [] (by simp [keysOf])
    refine hperm.trans ?_
    rw [List.nil_append]
    rw [keysOf_map_lookup (m.map (fun p => (p.1, c.to_json p.2))) hnd2
      (fun j => (c.from_json j c.dflt).1)]
    rw [List.map_map]
    exact List.Perm.refl _

theorem map_read_write_aux {α : Type} (c : convert α)
    (props : List (String × JSValue))
    (hnd : (keysOf props).Nodup)
    (hok : ∀ p ∈ props, (c.from_json p.2 c.dflt).2 = none) :
    (from_json (convert_map c) (JSValue.obj props) []).2 = none ∧
    (jsObjProps (to_json (convert_map c)
        (from_json (convert_map c) (JSValue.obj props) []).1)).Perm
      (props.map (fun p => (p.1, c.to_json ((c.from_json p.2 c.dflt).1)))) := by
  have hok2 : ∀ n ∈ keysOf props, (c.from_json (objGet props n) c.dflt).2 = none := by
    intro n hn
    exact hok (n, objGet props n) (objGet_mem props n hn)
  have hread : from_json (convert_map c) (JSValue.obj props) []
      = convert_map.fromGo c props (keysOf props) [] := rfl
  have hperm : (from_json (convert_map c) (JSValue.obj props) []).1.Perm
      (props.map (fun p => (p.1, (c.from_json p.2 c.dflt).1))) := by
    rw [hread]
    have h1 := convert_map_fromGo_perm c props (keysOf props) hnd hok2 [] (by simp [keysOf])
    refine h1.trans ?_
    rw [List.nil_append]
    rw [keysOf_map_lookup props hnd (fun j => (c.from_json j c.dflt).1)]
  constructor
  · rw [hread]
    exact convert_map_fromGo_none c _ _ hok2 []
  · have hkeysperm : (keysOf (from_json (convert_map c) (JSValue.obj props) []).1).Perm
        (keysOf props) := by
      have := hperm.map Prod.fst
      refine List.Perm.trans this ?_
      rw [List.map_map]
      exact List.Perm.refl _
    have hndr : (keysOf (from_json (convert_map c) (JSValue.obj props) []).1).Nodup := by
      rw [hkeysperm.nodup_iff]
      exact hnd
    rw [convert_map_to_json_spec c _ hndr]
    show ((from_json (convert_map c) (JSValue.obj props) []).1.map
        (fun p => (p.1, c.to_json p.2))).Perm _
    have := hperm.map (fun p => ((p.1 : String), c.to_json p.2))
    refine this.trans ?_
    rw [List.map_map]
    exact List.Perm.refl _

/-! The claims. -/

/-- C1 (counterexample): the round-trip claim fails for std::string as
stated: the string "a\x00b" (which contains an embedded NUL and is within
std::string's representable range) round-trips to "a", because both
`to_json` (via `value.c_str()`) and `from_json` (via assigning a `char *`)
truncate at the first NUL. -/
theorem claim_C1_counterexample :
    from_json convert_string (to_json convert_string "a\x00b") "" = ("a", none) ∧
    "a" ≠ "a\x00b" := by
  constructor
  · rfl
  · decide

/-- C1 (amended): for every supported primitive type and every value within
the type's representable range (magnitude at most 2^53 for the 64-bit
integers, and — the amendment — no embedded NUL character for std::string),
converting with to_json and back with from_json yields the original value
and no error, regardless of the out-parameter's prior contents. -/
theorem claim_C1_primitive_roundtrip :
    (∀ (v r : ℤ), -(2 ^ 15) ≤ v → v < 2 ^ 15 →
      from_json convert_int16_t (to_json convert_int16_t v) r = (v, none)) ∧
    (∀ (v r : ℤ), 0 ≤ v → v < 2 ^ 16 →
      from_json convert_uint16_t (to_json convert_uint16_t v) r = (v, none)) ∧
    (∀ (v r : ℤ), -(2 ^ 31) ≤ v → v < 2 ^ 31 →
      from_json convert_int32_t (to_json convert_int32_t v) r = (v, none)) ∧
    (∀ (v r : ℤ), 0 ≤ v → v < 2 ^ 32 →
      from_json convert_uint32_t (to_json convert_uint32_t v) r = (v, none)) ∧
    (∀ (v r : ℤ), -(2 ^ 53) ≤ v → v ≤ 2 ^ 53 →
      from_json convert_int64_t (to_json convert_int64_t v) r = (v, none)) ∧
    (∀ (v r : ℤ), 0 ≤ v → v ≤ 2 ^ 53 →
      from_json convert_uint64_t (to_json convert_uint64_t v) r = (v, none)) ∧
    (∀ (v r : ℚ), from_json convert_float (to_json convert_float v) r = (v, none)) ∧
    (∀ (v r : ℚ), from_json convert_double (to_json convert_double v) r = (v, none)) ∧
    (∀ (v r : Bool), from_json convert_bool (to_json convert_bool v) r = (v, none)) ∧
    (∀ (v r : String), Char.ofNat 0 ∉ v.data →
      from_json convert_string (to_json convert_string v) r = (v, none)) := by
  refine ⟨?_, ?_, ?_, ?_, ?_, ?_, ?_, ?_, ?_, ?_⟩
  · intro v r h1 h2
    show convert_int16_t.from_json (convert_int16_t.to_json v) r = (v, none)
    simp only [convert_int16_t, JSValue.isNumber, JSValue.int32Value, if_true]
    rw [toInt32_intCast v (by omega) (by omega), wrap16s_fixed v h1 h2]
  · intro v r h1 h2
    show convert_uint16_t.from_json (convert_uint16_t.to_json v) r = (v, none)
    simp only [convert_uint16_t, JSValue.isNumber, JSValue.uint32Value, if_true]
    rw [toUint32_intCast v (by omega) (by omega)]
    simp only [wrap16u]
    rw [Int.emod_eq_of_lt h1 h2]
  · intro v r h1 h2
    show convert_int32_t.from_json (convert_int32_t.to_json v) r = (v, none)
    simp only [convert_int32_t, JSValue.isNumber, JSValue.int32Value, if_true]
    rw [toInt32_intCast v h1 h2]
  · intro v r h1 h2
    show convert_uint32_t.from_json (convert_uint32_t.to_json v) r = (v, none)
    simp only [convert_uint32_t, JSValue.isNumber, JSValue.uint32Value, if_true]
    rw [toUint32_intCast v h1 h2]
  · intro v r h1 h2
    show convert_int64_t.from_json (convert_int64_t.to_json v) r = (v, none)
    simp only [convert_int64_t, JSValue.isNumber, JSValue.integerValue, if_true]
    rw [ratTrunc_intCast, intToDouble_small v (by omega)]
  · intro v r h1 h2
    show convert_uint64_t.from_json (convert_uint64_t.to_json v) r = (v, none)
    simp only [convert_uint64_t, JSValue.isNumber, JSValue.integerValue, if_true]
    rw [ratTrunc_intCast, intToDouble_small v (by omega)]
    simp only [wrap64u]
    rw [Int.emod_eq_of_lt h1 (by omega)]
  · intro v r
    rfl
  · intro v r
    rfl
  · intro v r
    cases v <;> rfl
  · intro v r h
    show convert_string.from_json (convert_string.to_json v) r = (v, none)
    rw [show convert_string.to_json v = JSValue.str (cstrTruncate v) from rfl]
    rw [cstrTruncate_eq_self v h]
    show (cstrTruncate v, none) = (v, none)
    rw [cstrTruncate_eq_self v h]

/-- C1 (witness): the amended round-trip theorem applied at concrete
in-range values of every primitive type. -/
theorem claim_C1_primitive_roundtrip_witness :
    from_json convert_int16_t (to_json convert_int16_t (-5)) 0 = (-5, none) ∧
    from_json convert_uint16_t (to_json convert_uint16_t 9) 0 = (9, none) ∧
    from_json convert_int32_t (to_json convert_int32_t (-70000)) 0 = (-70000, none) ∧
    from_json convert_uint32_t (to_json convert_uint32_t 70000) 0 = (70000, none) ∧
    from_json convert_int64_t (to_json convert_int64_t (-9007199254740992)) 0
      = (-9007199254740992, none) ∧
    from_json convert_uint64_t (to_json convert_uint64_t 9007199254740992) 0
      = (9007199254740992, none) ∧
    from_json convert_float (to_json convert_float (3 / 2)) 0 = (3 / 2, none) ∧
    from_json convert_double (to_json convert_double (-7 / 4)) 0 = (-7 / 4, none) ∧
    from_json convert_bool (to_json convert_bool true) false = (true, none) ∧
    from_json convert_string (to_json convert_string "hi") "" = ("hi", none) := by
  obtain ⟨h1, h2, h3, h4, h5, h6, h7, h8, h9, h10⟩ := claim_C1_primitive_roundtrip
  exact ⟨h1 (-5) 0 (by decide) (by decide),
    h2 9 0 (by decide) (by decide),
    h3 (-70000) 0 (by decide) (by decide),
    h4 70000 0 (by decide) (by decide),
    h5 (-9007199254740992) 0 (by decide) (by decide),
    h6 9007199254740992 0 (by decide) (by decide),
    h7 (3 / 2) 0,
    h8 (-7 / 4) 0,
    h9 true false,
    h10 "hi" "" (by decide)⟩

/-- C2 (counterexample): for a length-3 array whose second element has the
wrong dynamic kind, the sequence read does raise the error, but the
out-parameter DOES end up holding the successfully converted prefix: the
loop push_backs each element into the caller's container by reference
before converting the next one, so after the throw the container holds [1],
not its original empty contents. -/
theorem claim_C2_counterexample :
    from_json (convert_list convert_int32_t)
      (JSValue.arr [JSValue.num 1, JSValue.str "x", JSValue.num 3]) []
      = ([1], some cerr) ∧
    ([1] : List ℤ) ≠ [] := by
  constructor
  · rfl
  · decide

/-- C2 (amended): when an element of a dynamic array fails to convert, the
whole sequence conversion raises that element's ConversionError and returns
no sequence; the out-parameter, however, is left holding its prior contents
followed by the successfully converted prefix of elements before the
failing one (the C++ loop appends through the caller's reference as it
goes). -/
theorem claim_C2_nested_failure {α : Type} (c : convert α) (es1 : List JSValue)
    (bad : JSValue) (es2 : List JSValue) (init : List α) (x : α)
    (ex : bad_conversion_exception)
    (h1 : ∀ e ∈ es1, (c.from_json e c.dflt).2 = none)
    (h2 : c.from_json bad c.dflt = (x, some ex)) :
    from_json (convert_list c) (JSValue.arr (es1 ++ bad :: es2)) init
      = (init ++ es1.map (fun e => (c.from_json e c.dflt).1), some ex) := by
  show convert_list.fromGo c (es1 ++ bad :: es2) init = _
  exact convert_list_fromGo_fail c es1 bad es2 x ex h1 h2 init

/-- C2 (witness): the amended statement at a concrete length-3 array whose
second element is a string where an int32 is expected, reading into a
container that already holds one element. -/
theorem claim_C2_nested_failure_witness :
    from_json (convert_list convert_int32_t)
      (JSValue.arr ([JSValue.num 5] ++ JSValue.str "y" :: [JSValue.num 7])) [0]
      = ([0, 5], some cerr) := by
  have h := claim_C2_nested_failure convert_int32_t [JSValue.num 5] (JSValue.str "y")
    [JSValue.num 7] [0] 0 cerr (by decide) (by rfl)
  exact h.trans (by decide)

/-- C3: reading a field absent from a dynamic object through the defaulted
accessor raises no error and yields the default, while the required
accessor raises ConversionError and leaves the out-parameter untouched;
and the defaulted accessor never fails on any input whatsoever. -/
theorem claim_C3_default_substitution {α : Type} (c : convert α)
    (props : List (String × JSValue)) (name : String) (init d : α)
    (h : name ∉ keysOf props) :
    load_info.getWithDefault c ⟨JSValue.obj props⟩ name init d = (d, none) ∧
    load_info.get c ⟨JSValue.obj props⟩ name init = (init, some cerr) ∧
    ∀ (info : load_info) (name2 : String) (r d2 : α),
      (load_info.getWithDefault c info name2 r d2).2 = none := by
  have hget : load_info.get c ⟨JSValue.obj props⟩ name init = (init, some cerr) := by
    simp only [load_info.get, jsObjProps]
    rw [objGet_not_mem h]
    simp [JSValue.isUndefined]
  refine ⟨?_, hget, ?_⟩
  · simp only [load_info.getWithDefault, hget]
  · intro info name2 r d2
    simp only [load_info.getWithDefault]
    cases hres : load_info.get c info name2 r with
    | mk a ex => cases ex <;> simp

/-- C3 (witness): the default-substitution theorem at a concrete object
lacking the field "x", with default 42. -/
theorem claim_C3_default_substitution_witness :
    load_info.getWithDefault convert_int32_t ⟨JSValue.obj [("y", JSValue.num 1)]⟩
      "x" 0 42 = (42, none) ∧
    load_info.get convert_int32_t ⟨JSValue.obj [("y", JSValue.num 1)]⟩ "x" 0
      = (0, some cerr) := by
  have h := claim_C3_default_substitution convert_int32_t [("y", JSValue.num 1)]
    "x" 0 42 (by decide)
  exact ⟨h.1, h.2.1⟩

/-- C4: order preservation in both directions for sequences of every length
including zero: reading a dynamic array whose elements all convert appends
them to the result in index order, and writing a native sequence produces a
dynamic array whose i-th element is the converted i-th native element. -/
theorem claim_C4_sequence_order :
    (∀ (α : Type) (c : convert α) (es : List JSValue) (init : List α),
      (∀ e ∈ es, (c.from_json e c.dflt).2 = none) →
      from_json (convert_list c) (JSValue.arr es) init
        = (init ++ es.map (fun e => (c.from_json e c.dflt).1), none)) ∧
    (∀ (α : Type) (c : convert α) (xs : List α),
      to_json (convert_list c) xs = JSValue.arr (xs.map c.to_json)) := by
  constructor
  · intro α c es init h
    show convert_list.fromGo c es init = _
    exact convert_list_fromGo_ok c es h init
  · intro α c xs
    exact convert_list_to_json_spec c xs

/-- C4 (witness): order preservation at a concrete two-element array (read,
including the empty case via the zero-length array) and a concrete
two-element native sequence (write). -/
theorem claim_C4_sequence_order_witness :
    from_json (convert_list convert_bool)
      (JSValue.arr [JSValue.boolean true, JSValue.boolean false]) []
      = ([true, false], none) ∧
    from_json (convert_list convert_bool) (JSValue.arr []) [] = ([], none) ∧
    to_json (convert_list convert_int32_t) [5, 7]
      = JSValue.arr [JSValue.num 5, JSValue.num 7] := by
  refine ⟨?_, ?_, ?_⟩
  · have h := claim_C4_sequence_order.1 Bool convert_bool
      [JSValue.boolean true, JSValue.boolean false] [] (by decide)
    exact h.trans (by decide)
  · have h := claim_C4_sequence_order.1 Bool convert_bool [] [] (by decide)
    exact h.trans (by decide)
  · exact claim_C4_sequence_order.2 ℤ convert_int32_t [5, 7]

/-- C5: string-keyed map round trips preserve exactly the key set, in both
compositions.  Write-then-read: reading back a written map yields (up to
the key-sorted reordering of std::map) exactly the input entries with each
value replaced by its element round trip.  Read-then-write: writing back a
map read from a dynamic object yields an object whose property list is a
permutation of the input's, with each value recursively round-tripped.  No
key is dropped and no extra key appears. -/
theorem claim_C5_map_key_coverage :
    (∀ (α : Type) (c : convert α) (m : List (String × α)),
      (keysOf m).Nodup →
      (∀ p ∈ m, (c.from_json (c.to_json p.2) c.dflt).2 = none) →
      (from_json (convert_map c) (to_json (convert_map c) m) []).2 = none ∧
      (from_json (convert_map c) (to_json (convert_map c) m) []).1.Perm
        (m.map (fun p => (p.1, (c.from_json (c.to_json p.2) c.dflt).1)))) ∧
    (∀ (α : Type) (c : convert α) (props : List (String × JSValue)),
      (keysOf props).Nodup →
      (∀ p ∈ props, (c.from_json p.2 c.dflt).2 = none) →
      (from_json (convert_map c) (JSValue.obj props) []).2 = none ∧
      (jsObjProps (to_json (convert_map c)
          (from_json (convert_map c) (JSValue.obj props) []).1)).Perm
        (props.map (fun p => (p.1, c.to_json ((c.from_json p.2 c.dflt).1))))) :=
  ⟨fun _α c m h1 h2 => map_write_read_aux c m h1 h2,
   fun _α c props h1 h2 => map_read_write_aux c props h1 h2⟩

/-- C5 (witness): both round-trip directions at concrete maps: writing then
reading the two-entry map (b ↦ 2, a ↦ 1) recovers exactly those entries
(reordered by key), and reading then writing the one-property object
(x ↦ 3) reproduces exactly that property. -/
theorem claim_C5_map_key_coverage_witness :
    (from_json (convert_map convert_int32_t)
      (to_json (convert_map convert_int32_t) [("b", 2), ("a", 1)]) []).2 = none ∧
    (from_json (convert_map convert_int32_t)
      (to_json (convert_map convert_int32_t) [("b", 2), ("a", 1)]) []).1.Perm
      [("a", 1), ("b", 2)] ∧
    (from_json (convert_map convert_int32_t)
      (JSValue.obj [("x", JSValue.num 3)]) []).2 = none ∧
    (jsObjProps (to_json (convert_map convert_int32_t)
        (from_json (convert_map convert_int32_t)
          (JSValue.obj [("x", JSValue.num 3)]) []).1)).Perm
      [("x", JSValue.num 3)] := by
  have h1 := claim_C5_map_key_coverage.1 ℤ convert_int32_t [("b", 2), ("a", 1)]
    (by decide) (by decide)
  have h2 := claim_C5_map_key_coverage.2 ℤ convert_int32_t [("x", JSValue.num 3)]
    (by decide) (by decide)
  exact ⟨h1.1, h1.2.trans (by decide), h2.1, by simpa using h2.2⟩

/-- C6: reading a primitive from a dynamic value of mismatched kind raises
ConversionError and leaves the out-parameter unchanged — for every
non-number target of the numeric rules (covering string-to-integer), every
non-boolean for the bool rule (covering number-to-bool), and every
non-string for the string rule. -/
theorem claim_C6_type_mismatch :
    (∀ (v : JSValue) (r : ℤ), v.isNumber = false →
      from_json convert_int16_t v r = (r, some cerr)) ∧
    (∀ (v : JSValue) (r : ℤ), v.isNumber = false →
      from_json convert_uint16_t v r = (r, some cerr)) ∧
    (∀ (v : JSValue) (r : ℤ), v.isNumber = false →
      from_json convert_int32_t v r = (r, some cerr)) ∧
    (∀ (v : JSValue) (r : ℤ), v.isNumber = false →
      from_json convert_uint32_t v r = (r, some cerr)) ∧
    (∀ (v : JSValue) (r : ℤ), v.isNumber = false →
      from_json convert_int64_t v r = (r, some cerr)) ∧
    (∀ (v : JSValue) (r : ℤ), v.isNumber = false →
      from_json convert_uint64_t v r = (r, some cerr)) ∧
    (∀ (v : JSValue) (r : ℚ), v.isNumber = false →
      from_json convert_float v r = (r, some cerr)) ∧
    (∀ (v : JSValue) (r : ℚ), v.isNumber = false →
      from_json convert_double v r = (r, some cerr)) ∧
    (∀ (v : JSValue) (r : Bool), v.isBoolean = false →
      from_json convert_bool v r = (r, some cerr)) ∧
    (∀ (v : JSValue) (r : String), v.isString = false →
      from_json convert_string v r = (r, some cerr)) := by
  refine ⟨?_, ?_, ?_, ?_, ?_, ?_, ?_, ?_, ?_, ?_⟩ <;>
    intro v r h <;>
    simp [from_json, convert_int16_t, convert_uint16_t, convert_int32_t,
      convert_uint32_t, convert_int64_t, convert_uint64_t, convert_float,
      convert_double, convert_bool, convert_string, h]

/-- C6 (witness): the mismatch theorem at the claim's own examples — a
dynamic string read as int32 (and as the other integer widths), and a
dynamic number read as bool. -/
theorem claim_C6_type_mismatch_witness :
    from_json convert_int32_t (JSValue.str "hi") 7 = (7, some cerr) ∧
    from_json convert_int64_t (JSValue.str "hi") 7 = (7, some cerr) ∧
    from_json convert_bool (JSValue.num 3) false = (false, some cerr) := by
  obtain ⟨_, _, h3, _, h5, _, _, _, h9, _⟩ := claim_C6_type_mismatch
  exact ⟨h3 (JSValue.str "hi") 7 rfl, h5 (JSValue.str "hi") 7 rfl,
    h9 (JSValue.num 3) false rfl⟩

/-- C7: reading any non-array-like dynamic value as an ordered sequence
raises ConversionError before converting any element, and reading any
non-object-like dynamic value as a string-keyed map raises ConversionError;
in both cases the out-parameter is untouched. -/
theorem claim_C7_container_kind_check :
    (∀ (α : Type) (c : convert α) (v : JSValue) (r : List α),
      arrayCast v = none →
      from_json (convert_list c) v r = (r, some cerr)) ∧
    (∀ (α : Type) (c : convert α) (v : JSValue) (r : List (String × α)),
      objCast v = none →
      from_json (convert_map c) v r = (r, some cerr)) := by
  constructor
  · intro α c v r h
    show (match arrayCast v with
      | none => (r, some cerr)
      | some elems => convert_list.fromGo c elems r) = (r, some cerr)
    rw [h]
  · intro α c v r h
    show (match objCast v with
      | none => (r, some cerr)
      | some props => convert_map.fromGo c props (keysOf props) r) = (r, some cerr)
    rw [h]

/-- C7 (witness): the kind-check theorem at a dynamic number read as a
sequence and a dynamic string read as a map. -/
theorem claim_C7_container_kind_check_witness :
    from_json (convert_list convert_int32_t) (JSValue.num 1) [8] = ([8], some cerr) ∧
    from_json (convert_map convert_int32_t) (JSValue.str "s") [("k", 9)]
      = ([("k", 9)], some cerr) := by
  exact ⟨claim_C7_container_kind_check.1 ℤ convert_int32_t (JSValue.num 1) [8] rfl,
    claim_C7_container_kind_check.2 ℤ convert_int32_t (JSValue.str "s") [("k", 9)] rfl⟩

/-- C8: reading a dynamic number as a 16-bit integer extracts it through
the engine's 32-bit signed (int16_t) or unsigned (uint16_t) accessor and
truncates the result to 16 bits: the stored value is exactly the 16-bit
wrap of the 32-bit accessor's value, hence congruent to it modulo 2^16. -/
theorem claim_C8_sixteen_bit_truncation :
    ∀ (x : ℚ) (r : ℤ),
      from_json convert_int16_t (JSValue.num x) r = (wrap16s (toInt32 x), none) ∧
      wrap16s (toInt32 x) % 2 ^ 16 = toInt32 x % 2 ^ 16 ∧
      from_json convert_uint16_t (JSValue.num x) r = (wrap16u (toUint32 x), none) ∧
      wrap16u (toUint32 x) % 2 ^ 16 = toUint32 x % 2 ^ 16 := by
  intro x r
  refine ⟨rfl, wrap16s_emod (toInt32 x), rfl, ?_⟩
  simp only [wrap16u]
  omega

/-- C9: container reads never clear the caller-supplied out-parameter.  A
sequence read appends the converted elements after whatever the container
already holds; a map read inserts the converted entries into the existing
map, overwriting entries with equal keys and leaving all other
pre-existing entries in place (stated via the lookup function: after the
read, a key enumerated from the object maps to its converted value, and
every other key maps to whatever it mapped to before). -/
theorem claim_C9_read_into_existing :
    (∀ (α : Type) (c : convert α) (es : List JSValue) (init : List α),
      (∀ e ∈ es, (c.from_json e c.dflt).2 = none) →
      from_json (convert_list c) (JSValue.arr es) init
        = (init ++ es.map (fun e => (c.from_json e c.dflt).1), none)) ∧
    (∀ (α : Type) (c : convert α) (props : List (String × JSValue))
        (init : List (String × α)),
      (∀ n ∈ keysOf props, (c.from_json (objGet props n) c.dflt).2 = none) →
      (from_json (convert_map c) (JSValue.obj props) init).2 = none ∧
      ∀ k : String,
        mapFind? (from_json (convert_map c) (JSValue.obj props) init).1 k
          = if k ∈ keysOf props then some ((c.from_json (objGet props k) c.dflt).1)
            else mapFind? init k) ∧
    (∀ (α : Type) (name : String) (v : α) (l : List (String × α)) (k : String),
      mapFind? (mapInsert name v l) k = if k = name then some v else mapFind? l k) := by
  refine ⟨?_, ?_, ?_⟩
  · intro α c es init h
    show convert_list.fromGo c es init = _
    exact convert_list_fromGo_ok c es h init
  · intro α c props init h
    constructor
    · show (convert_map.fromGo c props (keysOf props) init).2 = none
      exact convert_map_fromGo_none c props (keysOf props) h init
    · intro k
      show mapFind? (convert_map.fromGo c props (keysOf props) init).1 k = _
      exact convert_map_fromGo_find c props (keysOf props) h init k
  · intro α name v l k
    exact mapFind?_mapInsert name v l k

/-- C9 (witness): reading a one-element array into a non-empty vector
keeps the old element in front; reading a one-property object into a map
that already binds another key keeps that binding and adds the new one. -/
theorem claim_C9_read_into_existing_witness :
    from_json (convert_list convert_int32_t) (JSValue.arr [JSValue.num 4]) [9]
      = ([9, 4], none) ∧
    mapFind? (from_json (convert_map convert_int32_t)
      (JSValue.obj [("a", JSValue.num 4)]) [("z", 9)]).1 "z" = some 9 ∧
    mapFind? (from_json (convert_map convert_int32_t)
      (JSValue.obj [("a", JSValue.num 4)]) [("z", 9)]).1 "a" = some 4 := by
  obtain ⟨hlist, hmap, _⟩ := claim_C9_read_into_existing
  have h1 := hlist ℤ convert_int32_t [JSValue.num 4] [9] (by decide)
  have h2 := hmap ℤ convert_int32_t [("a", JSValue.num 4)] [("z", 9)] (by decide)
  refine ⟨h1.trans (by decide), ?_, ?_⟩
  · exact (h2.2 "z").trans (by decide)
  · exact (h2.2 "a").trans (by decide)

/-- C10: the shared-pointer writer dereferences unconditionally (no null
check, no error branch): under the precondition that the wrapper is
non-null, its result is exactly the direct conversion of the pointed-to
value; and the reader overwrites the out-parameter with a freshly
allocated default-constructed pointee before converting into it, whatever
the out-parameter held before. -/
theorem claim_C10_shared_ptr {α : Type} (c : convert α) (p : Option α) (v : α)
    (data : JSValue) (r : Option α) (h : p = some v) :
    to_json (convert_shared_ptr c) p = c.to_json v ∧
    from_json (convert_shared_ptr c) data r
      = (some (c.from_json data c.dflt).1, (c.from_json data c.dflt).2) := by
  subst h
  constructor
  · rfl
  · show (match c.from_json data c.dflt with
      | (pointee, ex) => (some pointee, ex)) = _
    cases hf : c.from_json data c.dflt with
    | mk a ex => rfl

/-- C10 (witness): the shared-pointer theorem at a concrete non-null
wrapper around 3, and a read of the number 7 into a previously null
wrapper. -/
theorem claim_C10_shared_ptr_witness :
    to_json (convert_shared_ptr convert_int32_t) (some 3) = convert_int32_t.to_json 3 ∧
    from_json (convert_shared_ptr convert_int32_t) (JSValue.num 7) none
      = (some 7, none) := by
  have h := claim_C10_shared_ptr convert_int32_t (some 3) 3 (JSValue.num 7) none rfl
  exact ⟨h.1, h.2.trans (by decide)⟩
